import Mathlib

/-!
# Verification of the triangle-splatting renderer

A shallow embedding of the Rust sources (`load.rs`, `gui.rs`, `lib.rs`,
`display.rs`, `scene.rs`) of the triangle-splatting viewer, together with
theorems about the embedded operations.

Finite 32-bit and 16-bit IEEE floating-point payload values are modelled
exactly as rationals (every finite float is a rational; the decoders below map
the raw little-endian bit patterns to those rationals), and the floating-point
arithmetic of the pacer, sort key and letterbox computations is modelled as
exact rational arithmetic.  Non-finite bit patterns (exponent all-ones:
infinities and NaNs) have no rational value; theorems about successful loads
therefore carry an all-finite hypothesis on the position payload, and the
loader model exposes the panic of `partial_cmp(..).unwrap()` on NaN sort keys
as a distinct outcome.  The loader's size computations are wasm32 `usize`
arithmetic and wrap at `2^32` (release builds), which the model reproduces.
-/

namespace TriangleSplatting

/-! ## Vectors (`utils.rs`: Vec2h, Vec3f, Vec3h, Vec4h with exact values) -/

structure Vec3 where
  x : ℚ
  y : ℚ
  z : ℚ
deriving DecidableEq

structure Vec2 where
  x : ℚ
  y : ℚ
deriving DecidableEq

structure Vec4 where
  x : ℚ
  y : ℚ
  z : ℚ
  w : ℚ
deriving DecidableEq

def Vec3.add (a b : Vec3) : Vec3 := ⟨a.x + b.x, a.y + b.y, a.z + b.z⟩

def Vec3.divs (a : Vec3) (q : ℚ) : Vec3 := ⟨a.x / q, a.y / q, a.z / q⟩

def Vec3.dot (a b : Vec3) : ℚ := a.x * b.x + a.y * b.y + a.z * b.z

def zero3 : Vec3 := ⟨0, 0, 0⟩

def zero4 : Vec4 := ⟨0, 0, 0, 0⟩

/-! ## Byte-level decoding (`bytemuck::cast_slice` on little-endian IEEE data)

`leNat` folds a little-endian byte list into a natural number.  `f32_from_bits`
and `f16_from_bits` give the exact rational value of a finite IEEE-754
binary32 / binary16 bit pattern. -/

def leNat (bs : List ℕ) : ℕ := bs.foldr (fun b acc => b + 256 * acc) 0

/-- A bit pattern denotes a finite f32 (exponent not all-ones); the
exponent-255 patterns are the infinities and NaNs, which have no rational
value. -/
def f32_bits_finite (bits : ℕ) : Prop := bits / 2 ^ 23 % 2 ^ 8 ≠ 255

instance (bits : ℕ) : Decidable (f32_bits_finite bits) := by
  unfold f32_bits_finite; infer_instance

/-- The exact rational value of a finite IEEE binary32 bit pattern.  On
exponent-255 patterns (inf/NaN) the value returned here is meaningless; every
theorem that interprets decoded position values carries a `f32_bits_finite`
hypothesis, and non-finite patterns are only ever tracked by identity. -/
def f32_from_bits (bits : ℕ) : ℚ :=
  let sign : ℕ := bits / 2 ^ 31 % 2
  let expo : ℕ := bits / 2 ^ 23 % 2 ^ 8
  let frac : ℕ := bits % 2 ^ 23
  let mag : ℚ :=
    if expo = 0 then (frac : ℚ) / 2 ^ 149
    else ((2 ^ 23 + frac : ℕ) : ℚ) * 2 ^ expo / 2 ^ 150
  if sign = 1 then -mag else mag

def f16_from_bits (bits : ℕ) : ℚ :=
  let sign : ℕ := bits / 2 ^ 15 % 2
  let expo : ℕ := bits / 2 ^ 10 % 2 ^ 5
  let frac : ℕ := bits % 2 ^ 10
  let mag : ℚ :=
    if expo = 0 then (frac : ℚ) / 2 ^ 24
    else ((2 ^ 10 + frac : ℕ) : ℚ) * 2 ^ expo / 2 ^ 25
  if sign = 1 then -mag else mag

/-- Element `i` of a `&[f32]` reinterpretation of a byte buffer. -/
def f32_at (buf : List ℕ) (i : ℕ) : ℚ :=
  f32_from_bits (leNat ((buf.drop (4 * i)).take 4))

/-- Element `i` of a `&[f16]` reinterpretation of a byte buffer. -/
def f16_at (buf : List ℕ) (i : ℕ) : ℚ :=
  f16_from_bits (leNat ((buf.drop (2 * i)).take 2))

/-- Element `i` of a `&[Vec3f]` reinterpretation (12 bytes per element). -/
def vec3f_at (buf : List ℕ) (i : ℕ) : Vec3 :=
  ⟨f32_at buf (3 * i), f32_at buf (3 * i + 1), f32_at buf (3 * i + 2)⟩

/-- Element `i` of a `&[Vec2h]` reinterpretation (4 bytes per element). -/
def vec2h_at (buf : List ℕ) (i : ℕ) : Vec2 :=
  ⟨f16_at buf (2 * i), f16_at buf (2 * i + 1)⟩

/-- Element `i` of a `&[Vec3h]` reinterpretation (6 bytes per element). -/
def vec3h_at (buf : List ℕ) (i : ℕ) : Vec3 :=
  ⟨f16_at buf (3 * i), f16_at buf (3 * i + 1), f16_at buf (3 * i + 2)⟩

/-! ## `load.rs`: the TSPLAT loader -/

/-- One triangle: `[Vec3f; 3]`. -/
structure Tri where
  p0 : Vec3
  p1 : Vec3
  p2 : Vec3
deriving DecidableEq

def default_tri : Tri := ⟨zero3, zero3, zero3⟩

/-- `load.rs` `struct TSplat`. -/
structure TSplat where
  points : List Tri
  alpha_sigma : List Vec2
  sh : List Vec4
deriving DecidableEq

/-- The bytes of the literal `TSPLAT` magic line. -/
def tsplat_magic : List ℕ := [84, 83, 80, 76, 65, 84]

def is_ascii_ws (b : ℕ) : Bool :=
  b == 9 || b == 10 || b == 11 || b == 12 || b == 13 || b == 32

/-- `str::trim` on an ASCII byte string. -/
def trim_bytes (l : List ℕ) : List ℕ :=
  ((l.dropWhile is_ascii_ws).reverse.dropWhile is_ascii_ws).reverse

/-- The first line of the stream (bytes before the first `\n`), as consumed by
`read_line` (which also consumes the newline itself). -/
def header_line (s : List ℕ) : List ℕ := s.takeWhile (fun b => b != 10)

/-- The stream contents after the first line. -/
def after_line (s : List ℕ) : List ℕ := (s.dropWhile (fun b => b != 10)).drop 1

/-- `2^32`: wasm32 `usize` arithmetic wraps at this modulus in release
builds; the loader's size computations (load.rs lines 45–49) are `usize`
products and sums of the declared count. -/
def usize_size : ℕ := 4294967296

def points_bytes (num_tris : ℕ) : ℕ := num_tris * 3 * 12 % usize_size

def alpha_sigma_bytes (num_tris : ℕ) : ℕ := num_tris * 4 % usize_size

def sh_bytes (num_tris : ℕ) : ℕ := num_tris * 6 % usize_size

def expected_bytes (num_tris : ℕ) : ℕ :=
  (points_bytes num_tris + alpha_sigma_bytes num_tris + sh_bytes num_tris) % usize_size

/-- `bytemuck::cast_slice` element counts: the byte length of each slice over
its record size (these equal the declared count exactly when the size
computation does not wrap). -/
def num_tri_records (num_tris : ℕ) : ℕ := points_bytes num_tris / 36

def num_alpha_records (num_tris : ℕ) : ℕ := alpha_sigma_bytes num_tris / 4

def num_dc_records (num_tris : ℕ) : ℕ := sh_bytes num_tris / 6

/-- The declared little-endian `u32` triangle count of a stream. -/
def declared_count (s : List ℕ) : ℕ := leNat ((after_line s).take 4)

/-- The streaming part of `read_tsplat` (lines 26–71): header validation, count,
and the buffered payload read.  Returns the triangle count and the payload
buffer on success, `none` on any `InvalidFormat` failure.  On a `List`-modelled
stream the read loop succeeds exactly when enough payload bytes exist (a `read`
returning `0` before `expected_bytes` is the truncated case). -/
def parse_stream (s : List ℕ) : Option (ℕ × List ℕ) :=
  if trim_bytes (header_line s) = tsplat_magic then
    if 4 ≤ (after_line s).length then
      let num_tris := leNat ((after_line s).take 4)
      let payload := (after_line s).drop 4
      if expected_bytes num_tris ≤ payload.length then
        some (num_tris, payload.take (expected_bytes num_tris))
      else none
    else none
  else none

/-- The fixed forward direction used for depth sorting (line 105). -/
def forward : Vec3 := ⟨8644 / 10000, 4385 / 10000, 2458 / 10000⟩

/-- The depth-sort key of `read_tsplat` (lines 106–111): the code computes
`tri[0] + tri[1] + tri[2] / 3.0`, i.e. `p0 + p1 + (p2 / 3)` by operator
precedence, then dots with `forward`. -/
def sort_key (t : Tri) : ℚ :=
  Vec3.dot ((t.p0.add t.p1).add (t.p2.divs 3)) forward

/-- Modelled from the spec: the spec's depth-sort key, the projection of the
triangle's centroid `(p0 + p1 + p2) / 3` onto `forward`; stated for comparison
with the code's `sort_key`. -/
def spec_centroid_key (t : Tri) : ℚ :=
  Vec3.dot (((t.p0.add t.p1).add t.p2).divs 3) forward

/-- The comparator of `kv.sort_by(|a, b| b.0.partial_cmp(&a.0).unwrap())`:
descending by key. -/
def kv_rel (a b : ℚ × ℕ) : Prop := b.1 ≤ a.1

instance : DecidableRel kv_rel := fun a b => inferInstanceAs (Decidable (b.1 ≤ a.1))

instance : IsTotal (ℚ × ℕ) kv_rel := ⟨fun a b => le_total b.1 a.1⟩

instance : IsTrans (ℚ × ℕ) kv_rel := ⟨fun _ _ _ h1 h2 => le_trans h2 h1⟩

/-- `Vec4h::new(v.x, v.y, v.z, 0.0)` (line 93). -/
def pad4 (v : Vec3) : Vec4 := ⟨v.x, v.y, v.z, 0⟩

/-- The decoded input position records: `cast_slice` of the first
`points_bytes` bytes of the buffer, one triangle per 36 bytes. -/
def input_points (num_tris : ℕ) (buf : List ℕ) : List Tri :=
  (List.range (num_tri_records num_tris)).map (fun i =>
    ⟨vec3f_at (buf.take (points_bytes num_tris)) (3 * i),
     vec3f_at (buf.take (points_bytes num_tris)) (3 * i + 1),
     vec3f_at (buf.take (points_bytes num_tris)) (3 * i + 2)⟩)

/-- The decoded input alpha/spread records. -/
def input_alpha_sigma (num_tris : ℕ) (buf : List ℕ) : List Vec2 :=
  (List.range (num_alpha_records num_tris)).map
    (fun i => vec2h_at ((buf.drop (points_bytes num_tris)).take (alpha_sigma_bytes num_tris)) i)

/-- The decoded input DC color records (lines 89–90). -/
def input_dc (num_tris : ℕ) (buf : List ℕ) : List Vec3 :=
  (List.range (num_dc_records num_tris)).map
    (fun i => vec3h_at
      ((buf.drop (points_bytes num_tris + alpha_sigma_bytes num_tris)).take (sh_bytes num_tris)) i)

/-- The padded color array (lines 91–101): DC terms zero-extended with `0`
texels and truncated to `num_tris * 12` entries (a wrapping `usize`
product). -/
def input_sh (num_tris : ℕ) (buf : List ℕ) : List Vec4 :=
  (((input_dc num_tris buf).map pad4) ++
      List.replicate (num_tris * 12 % usize_size) zero4).take (num_tris * 12 % usize_size)

/-- The key/index pairs (lines 106–113). -/
def kv_pairs (points : List Tri) : List (ℚ × ℕ) :=
  (points.map sort_key).zip (List.range points.length)

/-- The parsing-and-sorting part of `read_tsplat` (lines 75–127). -/
def parse_buffer (num_tris : ℕ) (buf : List ℕ) : TSplat :=
  let points := input_points num_tris buf
  let alpha_sigma := input_alpha_sigma num_tris buf
  let sh := input_sh num_tris buf
  let kv := (kv_pairs points).insertionSort kv_rel
  { points := kv.map (fun p => points.getD p.2 default_tri)
    alpha_sigma := kv.map (fun p => alpha_sigma.getD p.2 ⟨0, 0⟩)
    sh := kv.map (fun p => sh.getD p.2 zero4) }

/-- The possible outcomes of a `read_tsplat` call: a parsed payload, the
`InvalidFormat` error, or a panic — `partial_cmp(..).unwrap()` on a NaN sort
key (load.rs line 114), or a slice/`bytemuck::cast_slice` panic when the
wrapped sizes break the cast step.  A panicking call never returns to
`load_scene`. -/
inductive LoadResult where
  | ok (t : TSplat)
  | invalid
  | panic
deriving DecidableEq

def load_ok : LoadResult → Bool
  | LoadResult.ok _ => true
  | _ => false

/-- The cast step succeeds: the three size fields sum below `2^32` (so the
three sub-slices of the payload buffer are in bounds) and each is a multiple
of its record size (`bytemuck::cast_slice` panics otherwise).  When the size
computation does not wrap this holds automatically. -/
def cast_sizes_ok (num_tris : ℕ) : Prop :=
  points_bytes num_tris + alpha_sigma_bytes num_tris + sh_bytes num_tris < usize_size ∧
  36 ∣ points_bytes num_tris ∧ 4 ∣ alpha_sigma_bytes num_tris ∧ 6 ∣ sh_bytes num_tris

instance (n : ℕ) : Decidable (cast_sizes_ok n) := by
  unfold cast_sizes_ok; infer_instance

/-- All 32-bit position fields of the payload are finite f32 bit patterns
(exponent ≠ 255): then every sort key is an ordinary float and the comparator
of line 114 never sees a NaN. -/
def positions_finite (num_tris : ℕ) (buf : List ℕ) : Prop :=
  ∀ j < 9 * num_tri_records num_tris,
    f32_bits_finite (leNat (((buf.take (points_bytes num_tris)).drop (4 * j)).take 4))

instance (n : ℕ) (buf : List ℕ) : Decidable (positions_finite n buf) := by
  unfold positions_finite; infer_instance

/-- `read_tsplat` (load.rs lines 18–128) over a `List`-modelled byte stream.
A stream with at least two decoded triangles and a non-finite position bit
pattern is modelled as the panic outcome: a NaN pattern makes some sort key
NaN and the comparator's `unwrap` panic (a sort of two or more elements always
compares every element).  Patterns that are infinities without producing a NaN
key would in fact complete; theorems about successful loads carry the
all-finite hypothesis and never rely on that sub-region.  Sorting at most one
element performs no comparison and cannot panic. -/
def read_tsplat (s : List ℕ) : LoadResult :=
  match parse_stream s with
  | none => LoadResult.invalid
  | some (n, buf) =>
    if cast_sizes_ok n ∧ (num_tri_records n ≤ 1 ∨ positions_finite n buf) then
      LoadResult.ok (parse_buffer n buf)
    else LoadResult.panic

/-- The flattened position array: 3 position vectors per triangle. -/
def positions_flat (l : List Tri) : List Vec3 :=
  l.flatMap (fun t => [t.p0, t.p1, t.p2])

/-- One step of the payload read loop (lines 55–71), with the stream modelled
as a list of chunk sizes, each paired with the ~20ms rate-gate outcome for the
report after it.  A chunk read into `&mut buffer[bytes_read..]` never exceeds
the remaining capacity.  Returns the progress values passed to
`pbar.update_progress`. -/
def read_loop_reports (expected : ℕ) : ℕ → List (ℕ × Bool) → List ℚ
  | _, [] => []
  | bytes_read, (c, gate) :: rest =>
    if bytes_read < expected then
      let read := min c (expected - bytes_read)
      if read = 0 then []
      else
        let br := bytes_read + read
        (if gate then [6 / 10 * ((br : ℚ) / (expected : ℚ))] else []) ++
          read_loop_reports expected br rest
    else []

/-! ## `lib.rs`: scene installation and event handling -/

/-- The application-owned scene state: the loaded splat payload and the
time/seed counter `t` (scene.rs line 137, started at `0`). -/
structure SceneSt where
  tsplat : TSplat
  t : ℕ
deriving DecidableEq

/-- `load_scene` (lib.rs lines 121–135): on a loader error the `?` operator
propagates, and on a loader panic the spawned task dies; in both cases the
application scene field is left untouched.  Only on success is the new scene
installed. -/
def load_scene (scene : Option SceneSt) (s : List ℕ) : Option SceneSt :=
  match read_tsplat s with
  | LoadResult.ok t => some ⟨t, 0⟩
  | _ => scene

/-! ## `display.rs`: render resolutions and render-target shapes -/

inductive RenderResolution where
  | ws360p
  | ws720p
  | ws1080p
  | ws1440p
  | ws2160p
  | native (w h : ℕ)
deriving DecidableEq

def RenderResolution.width : RenderResolution → ℕ
  | .ws360p => 640
  | .ws720p => 1280
  | .ws1080p => 1920
  | .ws1440p => 2560
  | .ws2160p => 3840
  | .native w _ => w

def RenderResolution.height : RenderResolution → ℕ
  | .ws360p => 360
  | .ws720p => 720
  | .ws1080p => 1080
  | .ws1440p => 1440
  | .ws2160p => 2160
  | .native _ h => h

/-- The (width, height) extents of the four textures allocated by
`create_render_frame` (display.rs lines 324–387). -/
structure RenderFrameShape where
  sample : ℕ × ℕ
  depth : ℕ × ℕ
  blit_front : ℕ × ℕ
  blit_back : ℕ × ℕ
deriving DecidableEq

def create_render_frame_shape (resolution : RenderResolution) (supersample : ℕ) :
    RenderFrameShape :=
  { sample := (resolution.width * supersample, resolution.height * supersample)
    depth := (resolution.width * supersample, resolution.height * supersample)
    blit_front := (resolution.width, resolution.height)
    blit_back := (resolution.width, resolution.height) }

/-! ## `display.rs`: accumulation double-buffering

The two accumulation textures are modelled by their identities (`false` for
the texture initially held in the `blit_front_texture` field, `true` for the
other); each bind-group field records the identity of the accumulation texture
its view references (binding 2 for the sample bind groups). -/

structure RenderFrame where
  blit_front_texture : Bool
  blit_back_texture : Bool
  blit_front_bind_group : Bool
  blit_back_bind_group : Bool
  sample_bind_group_front : Bool
  sample_bind_group_back : Bool
deriving DecidableEq

/-- `create_render_frame` identities (lines 402–480): the front blit bind group
views the front texture, the back views the back; `sample_bind_group_front`
views `blit_back_view` and `sample_bind_group_back` views `blit_front_view`. -/
def create_render_frame_ids : RenderFrame :=
  { blit_front_texture := false
    blit_back_texture := true
    blit_front_bind_group := false
    blit_back_bind_group := true
    sample_bind_group_front := true
    sample_bind_group_back := false }

/-- The three `std::mem::swap` calls at the top of each subframe iteration
(lines 522–533). -/
def swap_frame (f : RenderFrame) : RenderFrame :=
  { blit_front_texture := f.blit_back_texture
    blit_back_texture := f.blit_front_texture
    blit_front_bind_group := f.blit_back_bind_group
    blit_back_bind_group := f.blit_front_bind_group
    sample_bind_group_front := f.sample_bind_group_back
    sample_bind_group_back := f.sample_bind_group_front }

/-- One subframe's downsample pass: the accumulation texture written (the
color attachment built from the `blit_front_texture` field, line 578), the
accumulation texture read (binding 2 of the bound `sample_bind_group_front`,
line 610), and the seed the splat draw wrote into the uniform block
(scene.rs line 404). -/
structure SubframePass where
  write_tex : Bool
  read_tex : Bool
  seed : ℕ
deriving DecidableEq

def default_pass : SubframePass := ⟨false, false, 0⟩

/-- The subframe loop of `Display::render` (lines 521–619): swap, splat pass,
downsample pass, once per subframe.  Returns the pass trace and the final
frame state. -/
def render_subframes (t : ℕ) : ℕ → RenderFrame → List SubframePass × RenderFrame
  | 0, f => ([], f)
  | n + 1, f =>
    let f1 := swap_frame f
    let pass : SubframePass := ⟨f1.blit_front_texture, f1.sample_bind_group_front, t⟩
    let rest := render_subframes t n f1
    (pass :: rest.1, rest.2)

/-- `Display::render` subframe section: the loop body runs only when a scene
is loaded (`if let Some(scene)`, line 503). -/
def display_render (scene_loaded : Bool) (t : ℕ) (subframe_count : ℕ) (f : RenderFrame) :
    List SubframePass × RenderFrame :=
  if scene_loaded then render_subframes t subframe_count f else ([], f)

/-- The frame state after `k` swaps. -/
def frame_at (f : RenderFrame) : ℕ → RenderFrame
  | 0 => f
  | k + 1 => frame_at (swap_frame f) k

/-- Consistency of the bind-group identities with the texture identities,
as established by `create_render_frame` and preserved by the lock-step swaps. -/
def wf_frame (f : RenderFrame) : Prop :=
  f.blit_front_bind_group = f.blit_front_texture ∧
  f.blit_back_bind_group = f.blit_back_texture ∧
  f.sample_bind_group_front = f.blit_back_texture ∧
  f.sample_bind_group_back = f.blit_front_texture ∧
  f.blit_front_texture ≠ f.blit_back_texture

instance (f : RenderFrame) : Decidable (wf_frame f) := by
  unfold wf_frame; infer_instance

/-! ## `gui.rs`: the adaptive frame pacer (lines 19–34) -/

structure Pacer where
  avg_frame_time : ℚ
  subframe_count : ℕ
deriving DecidableEq

/-- The pacer update given the per-subframe cost estimate `dt`. -/
def pacer_step_dt (scene_loaded : Bool) (dt : ℚ) (p : Pacer) : Pacer :=
  let avg := 9 / 10 * p.avg_frame_time + 1 / 10 * dt
  let real := avg * (p.subframe_count : ℚ)
  let count :=
    if real < 18 / 1000 ∧ scene_loaded = true then p.subframe_count + 1
    else if 25 / 1000 < real ∧ 1 < p.subframe_count then p.subframe_count - 1
    else p.subframe_count
  ⟨avg, count⟩

/-- The pacer section of `show_gui`: `dt` is the wall-clock delta divided by
the previous frame's subframe count, or `0.015` on the very first frame. -/
def show_gui_pacer (scene_loaded : Bool) (last_frame_time : Option ℚ) (now : ℚ)
    (p : Pacer) : Pacer :=
  match last_frame_time with
  | some l => pacer_step_dt scene_loaded ((now - l) / (p.subframe_count : ℚ)) p
  | none => pacer_step_dt scene_loaded (15 / 1000) p

/-! ## `lib.rs`: camera state and window events (lines 272–359) -/

structure CamState where
  azimuth : ℚ
  elevation : ℚ
  zoom : ℚ
  prev_mouse : ℚ × ℚ
  mouse_dragging : Bool
  stale_camera : Bool
  render_resolution : RenderResolution
  supersample : ℕ
deriving DecidableEq

/-- `WindowEvent::CursorMoved` (lines 272–291): while dragging, azimuth and
elevation move by `delta * 0.01`, but the stale flag is raised only when the
pointer delta exceeds `0.1` in absolute value on either axis. -/
def cursor_moved (px py : ℚ) (s : CamState) : CamState :=
  if s.mouse_dragging = true then
    let dx := px - s.prev_mouse.1
    let dy := py - s.prev_mouse.2
    { s with
      azimuth := s.azimuth - dx * (1 / 100)
      elevation := s.elevation + dy * (1 / 100)
      stale_camera := if 1 / 10 < |dx| ∨ 1 / 10 < |dy| then true else s.stale_camera
      prev_mouse := (px, py) }
  else { s with prev_mouse := (px, py) }

/-- `WindowEvent::MouseWheel` with `LineDelta` (lines 292–307), the scroll
amount modelled as an integer number of lines: the zoom is scaled and the
stale flag is always raised. -/
def mouse_wheel_line (y : ℤ) (s : CamState) : CamState :=
  { s with zoom := s.zoom * (101 / 100 : ℚ) ^ y, stale_camera := true }

/-- `WindowEvent::MouseInput` for the left button (lines 308–321). -/
def mouse_input (pressed : Bool) (s : CamState) : CamState :=
  { s with mouse_dragging := pressed }

/-- The configuration / stale-flag portion of `RedrawRequested`
(lines 322–359): `new_res`/`new_ss` are the resolution and supersample factor
as left by the GUI pass; a change recreates the render frame and raises the
flag; the flag's value is then captured for the render call and the stored
flag is cleared before rendering.  Returns the post-frame state and the value
consumed by `Display::render`. -/
def redraw_config_step (new_res : RenderResolution) (new_ss : ℕ) (s : CamState) :
    CamState × Bool :=
  let s1 :=
    if new_res ≠ s.render_resolution ∨ new_ss ≠ s.supersample then
      { s with render_resolution := new_res, supersample := new_ss, stale_camera := true }
    else { s with render_resolution := new_res, supersample := new_ss }
  ({ s1 with stale_camera := false }, s1.stale_camera)

/-- The scene-time portion of `RedrawRequested` (lines 340–359) together with
the subframe loop: when unpaused and a scene is loaded, `t` is incremented
once, before `Display::render` runs the subframes. -/
def redraw_scene_step (paused : Bool) (scene_t : Option ℕ) (subframe_count : ℕ)
    (f : RenderFrame) : Option ℕ × (List SubframePass × RenderFrame) :=
  let scene' :=
    match scene_t with
    | none => none
    | some tv => if paused = true then some tv else some (tv + 1)
  (scene', display_render scene'.isSome (scene'.getD 0) subframe_count f)

/-! ## `display.rs`: letterboxed composite viewport (lines 710–727) -/

structure Viewport where
  x : ℚ
  y : ℚ
  w : ℚ
  h : ℚ
deriving DecidableEq

def letterbox (frame_width frame_height canvas_width canvas_height : ℚ) : Viewport :=
  let frame_aspect := frame_width / frame_height
  let canvas_aspect := canvas_width / canvas_height
  if canvas_aspect < frame_aspect then
    let box_width := canvas_width
    let box_height := canvas_width / frame_aspect
    let border := (canvas_height - box_height) / 2
    ⟨0, border, box_width, box_height⟩
  else
    let box_width := canvas_height * frame_aspect
    let box_height := canvas_height
    let border := (canvas_width - box_width) / 2
    ⟨border, 0, box_width, box_height⟩

/-! ## Claim C1: the depth-sort key -/

/-- The triangle `(3,0,0), (0,0,0), (0,0,0)` separating the code's key from
the centroid projection. -/
def c1_tri : Tri := ⟨⟨3, 0, 0⟩, zero3, zero3⟩

/-- C1: the claim states that the depth-sort key computed by `read_tsplat`
equals the projection of the centroid `(p0 + p1 + p2) / 3` onto `forward`.
The code computes `tri[0] + tri[1] + tri[2] / 3.0`, which by operator
precedence is `p0 + p1 + (p2 / 3)`, not the centroid: at `c1_tri` the code's
key is `3 · 0.8644 = 2.5932` while the centroid projection is `0.8644`. -/
theorem c1_sort_key_deviates_from_centroid :
    sort_key c1_tri = 6483 / 2500 ∧ spec_centroid_key c1_tri = 2161 / 2500 ∧
      sort_key c1_tri ≠ spec_centroid_key c1_tri := by
  refine ⟨?_, ?_, ?_⟩ <;>
    norm_num [sort_key, spec_centroid_key, c1_tri, forward, Vec3.add, Vec3.divs, Vec3.dot,
      zero3]

/-! ## Claim C7: render-target shapes -/

/-- C7: for every resolution and supersample factor `S`, `create_render_frame`
allocates the sample target and its depth target at `(W·S, H·S)` and the two
accumulation targets at `(W, H)`; re-invocation with the same arguments gives
the same shapes, and the `1080p` resolution maps to `1920 × 1080`, so its
sample target is `1920·S × 1080·S`. -/
theorem c7_render_frame_shapes (res : RenderResolution) (ss : ℕ) :
    (create_render_frame_shape res ss).sample = (res.width * ss, res.height * ss) ∧
    (create_render_frame_shape res ss).depth = (res.width * ss, res.height * ss) ∧
    (create_render_frame_shape res ss).blit_front = (res.width, res.height) ∧
    (create_render_frame_shape res ss).blit_back = (res.width, res.height) ∧
    create_render_frame_shape res ss = create_render_frame_shape res ss ∧
    RenderResolution.width .ws1080p = 1920 ∧
    RenderResolution.height .ws1080p = 1080 ∧
    (create_render_frame_shape .ws1080p ss).sample = (1920 * ss, 1080 * ss) :=
  ⟨rfl, rfl, rfl, rfl, rfl, rfl, rfl, rfl⟩

/-! ## Claim C8: letterboxed viewport -/

/-- The viewport properties claimed for `Display::render`'s composite pass. -/
def letterbox_ok (fw fh cw ch : ℚ) : Prop :=
  (cw / ch < fw / fh →
    letterbox fw fh cw ch = ⟨0, (ch - cw / (fw / fh)) / 2, cw, cw / (fw / fh)⟩ ∧
    2 * (letterbox fw fh cw ch).y + (letterbox fw fh cw ch).h = ch) ∧
  (¬ cw / ch < fw / fh →
    letterbox fw fh cw ch = ⟨(cw - ch * (fw / fh)) / 2, 0, ch * (fw / fh), ch⟩ ∧
    2 * (letterbox fw fh cw ch).x + (letterbox fw fh cw ch).w = cw)

/-- C8: when the frame aspect exceeds the canvas aspect the viewport spans the
full canvas width, its height is `canvas_width / frame_aspect`, its x offset is
`0` and its y offset is `(canvas_height − height) / 2` (symmetric vertical
borders); in the other case the symmetric statement with the roles of the axes
exchanged. -/
theorem c8_letterbox_viewport (fw fh cw ch : ℚ) : letterbox_ok fw fh cw ch := by
  unfold letterbox_ok letterbox
  constructor
  · intro h
    rw [if_pos h]
    exact ⟨rfl, by ring⟩
  · intro h
    rw [if_neg h]
    exact ⟨rfl, by ring⟩

/-- Witness for C8 at the concrete sizes frame `16×9`, canvas `4×3`. -/
theorem c8_letterbox_witness :
    letterbox 16 9 4 3 = ⟨0, (3 - 4 / ((16 : ℚ) / 9)) / 2, 4, 4 / ((16 : ℚ) / 9)⟩ ∧
    2 * (letterbox 16 9 4 3).y + (letterbox 16 9 4 3).h = 3 :=
  (c8_letterbox_viewport 16 9 4 3).1 (by norm_num)

/-! ## Claim C9: progress values reported by the payload read loop -/

/-- C9 counterexample: a single read completing a 10-byte payload with the
rate gate open reports `0.6 · (10/10) = 3/5`, not the fraction
`bytes_read / expected_bytes = 1` that the claim states. -/
theorem c9_report_not_fraction :
    read_loop_reports 10 0 [(10, true)] = [3 / 5] ∧ ((3 : ℚ) / 5) ≠ (10 : ℚ) / 10 := by
  constructor
  · show (if (0 : ℕ) < 10 then _ else _) = _
    norm_num [read_loop_reports]
  · norm_num

/-- C9 amended: every progress value handed to the progress sink during the
payload read loop equals `0.6 · (bytes_read / expected_bytes)` for the running
byte count at that report, a value in `(0, 3/5]`; the unscaled fraction is
never reported. -/
theorem c9_reports_scaled (expected br0 : ℕ) (chunks : List (ℕ × Bool))
    (h0 : 0 < expected) (hbr : br0 ≤ expected) :
    ∀ r ∈ read_loop_reports expected br0 chunks,
      ∃ b : ℕ, br0 < b ∧ b ≤ expected ∧ r = 6 / 10 * ((b : ℚ) / (expected : ℚ)) ∧
        0 < r ∧ r ≤ 6 / 10 := by
  induction chunks generalizing br0 with
  | nil => intro r hr; simp [read_loop_reports] at hr
  | cons cg rest ih =>
    obtain ⟨c, gate⟩ := cg
    intro r hr
    unfold read_loop_reports at hr
    by_cases hlt : br0 < expected
    · rw [if_pos hlt] at hr
      by_cases hz : min c (expected - br0) = 0
      · rw [if_pos hz] at hr; simp at hr
      · rw [if_neg hz] at hr
        simp only [List.mem_append] at hr
        have hread : 0 < min c (expected - br0) := Nat.pos_of_ne_zero hz
        have hble : br0 + min c (expected - br0) ≤ expected := by
          have := Nat.min_le_right c (expected - br0)
          omega
        rcases hr with hr | hr
        · by_cases hg : gate = true
          · rw [if_pos hg] at hr
            simp only [List.mem_singleton] at hr
            subst hr
            refine ⟨br0 + min c (expected - br0), by omega, hble, rfl, ?_, ?_⟩
            · have hbpos : (0 : ℚ) < ((br0 + min c (expected - br0) : ℕ) : ℚ) := by
                exact_mod_cast Nat.pos_of_ne_zero (by omega)
              have hepos : (0 : ℚ) < ((expected : ℕ) : ℚ) := by exact_mod_cast h0
              positivity
            · have hle : ((br0 + min c (expected - br0) : ℕ) : ℚ) ≤ ((expected : ℕ) : ℚ) := by
                exact_mod_cast hble
              have hepos : (0 : ℚ) < ((expected : ℕ) : ℚ) := by exact_mod_cast h0
              have hfrac : ((br0 + min c (expected - br0) : ℕ) : ℚ) / ((expected : ℕ) : ℚ) ≤ 1 :=
                (div_le_one hepos).mpr hle
              nlinarith
          · rw [if_neg hg] at hr; simp at hr
        · obtain ⟨b, hb1, hb2, hb3, hb4⟩ := ih (br0 + min c (expected - br0)) hble r hr
          exact ⟨b, by omega, hb2, hb3, hb4⟩
    · rw [if_neg hlt] at hr; simp at hr

/-- Witness for C9 amended: the first report of a 10-byte payload read in
chunks of 4 and 6 with the gate open both times. -/
theorem c9_reports_scaled_witness :
    ∃ b : ℕ, 0 < b ∧ b ≤ 10 ∧ ((6 : ℚ) / 25) = 6 / 10 * ((b : ℚ) / ((10 : ℕ) : ℚ)) ∧
      (0 : ℚ) < 6 / 25 ∧ ((6 : ℚ) / 25) ≤ 6 / 10 :=
  c9_reports_scaled 10 0 [(4, true), (6, true)] (by decide) (by decide) (6 / 25)
    (by norm_num [read_loop_reports])

/-! ## Claim C6: the stale-camera flag -/

/-- A dragging state with the flag down, pointer at the origin. -/
def c6_state : CamState :=
  { azimuth := 0, elevation := 0, zoom := 3, prev_mouse := (0, 0), mouse_dragging := true
    stale_camera := false, render_resolution := .ws1080p, supersample := 1 }

/-- C6 counterexample: a drag of `0.05` pixels changes the azimuth (by
`-0.0005`) but does not raise the stale-camera flag, because the cursor
handler only raises it when the pointer delta exceeds `0.1` on an axis. -/
theorem c6_small_drag_leaves_flag_down :
    (cursor_moved (1 / 20) 0 c6_state).azimuth ≠ c6_state.azimuth ∧
    (cursor_moved (1 / 20) 0 c6_state).stale_camera = false := by
  have habs : |(1 : ℚ) / 20| = 1 / 20 := by
    rw [abs_of_pos]; norm_num
  constructor
  · norm_num [cursor_moved, c6_state]
  · norm_num [cursor_moved, c6_state, habs]

/-- The amended stale-flag contract: raised on every wheel zoom event and on
every resolution/supersample change; raised on a drag exactly when the pointer
delta exceeds `0.1` in absolute value on either axis; untouched by cursor moves
without dragging; consumed by the render call at its pre-clear value and false
after every displayed frame. -/
def stale_flag_contract : Prop :=
  (∀ (y : ℤ) (s : CamState), (mouse_wheel_line y s).stale_camera = true) ∧
  (∀ (px py : ℚ) (s : CamState), s.mouse_dragging = true →
    (1 / 10 < |px - s.prev_mouse.1| ∨ 1 / 10 < |py - s.prev_mouse.2|) →
    (cursor_moved px py s).stale_camera = true) ∧
  (∀ (px py : ℚ) (s : CamState), s.mouse_dragging = true →
    ¬(1 / 10 < |px - s.prev_mouse.1| ∨ 1 / 10 < |py - s.prev_mouse.2|) →
    (cursor_moved px py s).stale_camera = s.stale_camera) ∧
  (∀ (px py : ℚ) (s : CamState), s.mouse_dragging = false →
    (cursor_moved px py s).azimuth = s.azimuth ∧
    (cursor_moved px py s).elevation = s.elevation ∧
    (cursor_moved px py s).stale_camera = s.stale_camera) ∧
  (∀ (nr : RenderResolution) (nss : ℕ) (s : CamState),
    nr ≠ s.render_resolution ∨ nss ≠ s.supersample →
    (redraw_config_step nr nss s).2 = true) ∧
  (∀ (nr : RenderResolution) (nss : ℕ) (s : CamState),
    ¬(nr ≠ s.render_resolution ∨ nss ≠ s.supersample) →
    (redraw_config_step nr nss s).2 = s.stale_camera) ∧
  (∀ (nr : RenderResolution) (nss : ℕ) (s : CamState),
    (redraw_config_step nr nss s).1.stale_camera = false)

/-- C6 amended: the stale-camera flag behaves per `stale_flag_contract` —
in particular sub-threshold drags (delta ≤ 0.1 px) change azimuth/elevation
without raising it, all other listed mutations raise it, and each displayed
frame consumes the pre-clear value and leaves the flag false. -/
theorem c6_stale_flag_contract : stale_flag_contract := by
  refine ⟨fun y s => rfl, ?_, ?_, ?_, ?_, ?_, ?_⟩
  · intro px py s hd hth
    simp only [cursor_moved, if_pos hd, if_pos hth]
  · intro px py s hd hth
    simp only [cursor_moved, if_pos hd, if_neg hth]
  · intro px py s hd
    simp only [cursor_moved, hd]
    exact ⟨rfl, rfl, rfl⟩
  · intro nr nss s hch
    simp only [redraw_config_step, if_pos hch]
  · intro nr nss s hch
    simp only [redraw_config_step, if_neg hch]
  · intro nr nss s
    by_cases hch : nr ≠ s.render_resolution ∨ nss ≠ s.supersample
    · simp only [redraw_config_step, if_pos hch]
    · simp only [redraw_config_step, if_neg hch]

/-- Witness for C6 amended: a wheel event on the concrete state raises the
flag. -/
theorem c6_stale_flag_contract_witness : (mouse_wheel_line 1 c6_state).stale_camera = true :=
  c6_stale_flag_contract.1 1 c6_state

/-! ## Claim C4: the adaptive frame pacer -/

/-- The reference step the claim describes, as properties of the pacer update:
the smoothed average, the three guarded count outcomes, and the lower bound. -/
def pacer_claim_holds (scene_loaded : Bool) (delta : ℚ) (p q : Pacer) : Prop :=
  q.avg_frame_time = 9 / 10 * p.avg_frame_time + 1 / 10 * (delta / (p.subframe_count : ℚ)) ∧
  (q.avg_frame_time * (p.subframe_count : ℚ) < 18 / 1000 ∧ scene_loaded = true →
    q.subframe_count = p.subframe_count + 1) ∧
  (25 / 1000 < q.avg_frame_time * (p.subframe_count : ℚ) ∧ 1 < p.subframe_count →
    q.subframe_count = p.subframe_count - 1) ∧
  (¬(q.avg_frame_time * (p.subframe_count : ℚ) < 18 / 1000 ∧ scene_loaded = true) →
    ¬(25 / 1000 < q.avg_frame_time * (p.subframe_count : ℚ) ∧ 1 < p.subframe_count) →
    q.subframe_count = p.subframe_count) ∧
  1 ≤ q.subframe_count

/-- C4: the per-frame pacer update of `show_gui` matches the reference step:
`dt` is the wall-clock delta over the previous frame's subframe count,
`avg' = 0.9·avg + 0.1·dt`, and with `realized = avg'·count` the count is
incremented when `realized < 18ms` with a scene loaded, decremented when
`realized > 25ms` and `count > 1`, held otherwise; the count never drops
below 1. -/
theorem c4_pacer_step (scene_loaded : Bool) (l now : ℚ) (p : Pacer)
    (hc : 1 ≤ p.subframe_count) :
    pacer_claim_holds scene_loaded (now - l) p
      (show_gui_pacer scene_loaded (some l) now p) := by
  unfold pacer_claim_holds show_gui_pacer pacer_step_dt
  set avg : ℚ := 9 / 10 * p.avg_frame_time + 1 / 10 * ((now - l) / (p.subframe_count : ℚ))
    with havg
  set real : ℚ := avg * (p.subframe_count : ℚ) with hreal
  refine ⟨rfl, ?_, ?_, ?_, ?_⟩
  · intro h
    simp only [if_pos h]
  · intro h
    have hni : ¬(real < 18 / 1000 ∧ scene_loaded = true) := by
      rintro ⟨h1, -⟩
      have := h.1
      linarith
    simp only [if_neg hni, if_pos h]
  · intro h1 h2
    simp only [if_neg h1, if_neg h2]
  · by_cases h1 : real < 18 / 1000 ∧ scene_loaded = true
    · simp only [if_pos h1]; omega
    · by_cases h2 : 25 / 1000 < real ∧ 1 < p.subframe_count
      · simp only [if_neg h1, if_pos h2]; omega
      · simp only [if_neg h1, if_neg h2]; omega

/-- Witness for C4: scene loaded, previous frame at `t = 0`, now `0.01s`,
average `1/60`, one subframe. -/
theorem c4_pacer_step_witness :
    pacer_claim_holds true ((1 : ℚ) / 100 - 0) ⟨1 / 60, 1⟩
      (show_gui_pacer true (some 0) (1 / 100) ⟨1 / 60, 1⟩) :=
  c4_pacer_step true 0 (1 / 100) ⟨1 / 60, 1⟩ (by decide)

/-! ## Claims C5 and C10: the subframe loop -/

theorem swap_frame_swap_frame (f : RenderFrame) : swap_frame (swap_frame f) = f := rfl

theorem frame_at_succ (f : RenderFrame) (k : ℕ) :
    frame_at f (k + 1) = swap_frame (frame_at f k) := by
  induction k generalizing f with
  | zero => rfl
  | succ k ih =>
    show frame_at (swap_frame f) (k + 1) = swap_frame (frame_at (swap_frame f) k)
    exact ih (swap_frame f)

theorem wf_frame_swap {f : RenderFrame} (h : wf_frame f) : wf_frame (swap_frame f) := by
  obtain ⟨h1, h2, h3, h4, h5⟩ := h
  exact ⟨h2, h1, h4, h3, fun he => h5 he.symm⟩

theorem wf_frame_at {f : RenderFrame} (h : wf_frame f) (k : ℕ) : wf_frame (frame_at f k) := by
  induction k generalizing f with
  | zero => exact h
  | succ k ih => exact ih (wf_frame_swap h)

/-- The trace and final state of the subframe loop, in closed form: pass `i`
writes the front texture of the frame after `i + 1` swaps and reads (through
`sample_bind_group_front`) the front texture of the frame after `i` swaps,
i.e. the previous accumulation result. -/
theorem render_subframes_trace (t : ℕ) (n : ℕ) (f : RenderFrame) (h : wf_frame f) :
    (render_subframes t n f).1 =
      (List.range n).map (fun i =>
        ⟨(frame_at f (i + 1)).blit_front_texture, (frame_at f i).blit_front_texture, t⟩) ∧
    (render_subframes t n f).2 = frame_at f n := by
  induction n generalizing f with
  | zero => exact ⟨rfl, rfl⟩
  | succ n ih =>
    obtain ⟨ih1, ih2⟩ := ih (swap_frame f) (wf_frame_swap h)
    constructor
    · show (⟨(swap_frame f).blit_front_texture, (swap_frame f).sample_bind_group_front, t⟩ ::
          (render_subframes t n (swap_frame f)).1) = _
      rw [ih1, List.range_succ_eq_map, List.map_cons, List.map_map]
      have hhead : (swap_frame f).sample_bind_group_front = f.blit_front_texture := h.2.2.2.1
      rw [hhead]
      rfl
    · show (render_subframes t n (swap_frame f)).2 = _
      rw [ih2]
      rfl

/-- The seed written by every subframe draw is the scene's `t`, unchanged
across the loop; no well-formedness needed. -/
theorem render_subframes_seeds (t : ℕ) (n : ℕ) (f : RenderFrame) :
    (render_subframes t n f).1.length = n ∧
      ∀ p ∈ (render_subframes t n f).1, p.seed = t := by
  induction n generalizing f with
  | zero => exact ⟨rfl, by intro p hp; simp [render_subframes] at hp⟩
  | succ n ih =>
    obtain ⟨ih1, ih2⟩ := ih (swap_frame f)
    refine ⟨?_, ?_⟩
    · show (_ :: (render_subframes t n (swap_frame f)).1).length = n + 1
      rw [List.length_cons, ih1]
    · intro p hp
      rcases List.mem_cons.mp hp with hp | hp
      · rw [hp]
      · exact ih2 p hp

/-- The C5 contract over the subframe loop of `Display::render`. -/
def render_loop_claim (t n : ℕ) (f : RenderFrame) : Prop :=
  (display_render true t n f).1.length = n ∧
  (∀ i, i < n →
    (display_render true t n f).1.getD i default_pass =
      ⟨(frame_at f (i + 1)).blit_front_texture, (frame_at f (i + 1)).blit_back_texture, t⟩) ∧
  (∀ p ∈ (display_render true t n f).1, p.write_tex ≠ p.read_tex) ∧
  (∀ i, i + 1 < n →
    ((display_render true t n f).1.getD (i + 1) default_pass).read_tex =
      ((display_render true t n f).1.getD i default_pass).write_tex) ∧
  wf_frame (display_render true t n f).2 ∧
  (display_render true t n f).2.blit_front_bind_group = (frame_at f n).blit_front_texture ∧
  (0 < n →
    (display_render true t n f).2.blit_front_bind_group =
      ((display_render true t n f).1.getD (n - 1) default_pass).write_tex)

theorem getD_range_map {α : Type _} (g : ℕ → α) (n i : ℕ) (d : α) (h : i < n) :
    (((List.range n).map g).getD i d) = g i := by
  have hlen : i < ((List.range n).map g).length := by
    rw [List.length_map, List.length_range]; exact h
  rw [List.getD_eq_getElem _ _ hlen, List.getElem_map, List.getElem_range]

/-- C5: with a scene loaded, the loop runs exactly `subframe_count` passes;
each pass is preceded by exactly one front/back swap, writes the new front
identity and reads the back identity (which holds the previous pass's result),
never reading and writing the same identity; consecutive passes chain; and the
final composite bind group reads the front identity, the one written by the
last pass. -/
theorem c5_render_loop (t n : ℕ) (f : RenderFrame) (h : wf_frame f) :
    render_loop_claim t n f := by
  obtain ⟨htr, hfin⟩ := render_subframes_trace t n f h
  have hdisp : display_render true t n f = render_subframes t n f := by
    simp [display_render]
  have hback : ∀ i : ℕ, (frame_at f (i + 1)).blit_back_texture =
      (frame_at f i).blit_front_texture := by
    intro i
    rw [frame_at_succ]
    rfl
  have hgetD : ∀ i, i < n → (display_render true t n f).1.getD i default_pass =
      ⟨(frame_at f (i + 1)).blit_front_texture, (frame_at f i).blit_front_texture, t⟩ := by
    intro i hi
    rw [hdisp, htr]
    exact getD_range_map _ n i default_pass hi
  refine ⟨?_, ?_, ?_, ?_, ?_, ?_, ?_⟩
  · rw [hdisp, htr, List.length_map, List.length_range]
  · intro i hi
    rw [hgetD i hi, hback i]
  · intro p hp
    rw [hdisp, htr] at hp
    obtain ⟨i, hi, hpi⟩ := List.mem_map.mp hp
    rw [List.mem_range] at hi
    rw [← hpi]
    show (frame_at f (i + 1)).blit_front_texture ≠ (frame_at f i).blit_front_texture
    rw [frame_at_succ]
    have hwf := wf_frame_at h i
    exact fun he => hwf.2.2.2.2 he.symm
  · intro i hi
    rw [hgetD (i + 1) hi, hgetD i (by omega)]
  · rw [hdisp, hfin]
    exact wf_frame_at h n
  · rw [hdisp, hfin]
    exact (wf_frame_at h n).1
  · intro hn
    rw [hgetD (n - 1) (by omega), hdisp, hfin]
    show (frame_at f n).blit_front_bind_group = (frame_at f (n - 1 + 1)).blit_front_texture
    rw [Nat.sub_add_cancel hn]
    exact (wf_frame_at h n).1

/-- Witness for C5: two subframes over the freshly created render frame. -/
theorem c5_render_loop_witness : render_loop_claim 7 2 create_render_frame_ids :=
  c5_render_loop 7 2 create_render_frame_ids (by decide)

/-- The C10 contract over the redraw step. -/
def seed_step_claim (paused : Bool) (tv count : ℕ) (f : RenderFrame) : Prop :=
  (paused = true → (redraw_scene_step paused (some tv) count f).1 = some tv) ∧
  (paused = false → (redraw_scene_step paused (some tv) count f).1 = some (tv + 1)) ∧
  (redraw_scene_step paused (some tv) count f).2.1.length = count ∧
  (∀ p ∈ (redraw_scene_step paused (some tv) count f).2.1,
    p.seed = ((redraw_scene_step paused (some tv) count f).1.getD 0))

/-- C10: with a scene loaded, a paused frame leaves `t` unchanged, an unpaused
frame increments `t` by exactly one before rendering, and every subframe draw
of the frame writes that same post-increment `t` as the uniform seed. -/
theorem c10_seed_step (paused : Bool) (tv count : ℕ) (f : RenderFrame) :
    seed_step_claim paused tv count f := by
  cases paused with
  | true =>
    refine ⟨fun _ => rfl, fun hf => by simp at hf, ?_, ?_⟩
    · exact (render_subframes_seeds tv count f).1
    · exact (render_subframes_seeds tv count f).2
  | false =>
    refine ⟨fun ht => by simp at ht, fun _ => rfl, ?_, ?_⟩
    · exact (render_subframes_seeds (tv + 1) count f).1
    · exact (render_subframes_seeds (tv + 1) count f).2

/-- Witness for C10: an unpaused frame at `t = 5` with three subframes. -/
theorem c10_seed_step_witness : seed_step_claim false 5 3 create_render_frame_ids :=
  c10_seed_step false 5 3 create_render_frame_ids

/-! ## Claim C3: loader failure conditions -/

/-- The inputs on which the loading path succeeds: the *trimmed* first line is
`TSPLAT`, at least 4 count bytes follow the line, and the payload holds at
least the expected byte count for the declared triangle count. -/
def valid_stream (s : List ℕ) : Prop :=
  trim_bytes (header_line s) = tsplat_magic ∧
  4 ≤ (after_line s).length ∧
  expected_bytes (declared_count s) ≤ (after_line s).length - 4

instance (s : List ℕ) : Decidable (valid_stream s) := by
  unfold valid_stream; infer_instance

/-- The header line consists of ASCII bytes.  On such streams the ASCII
`trim_bytes` agrees with `str::trim`, which strips the full Unicode
White_Space set (e.g. a U+00A0-padded header is also trimmed by the code);
the failure characterization below is stated for ASCII header lines. -/
def ascii_header (s : List ℕ) : Prop := ∀ b ∈ header_line s, b < 128

instance (s : List ℕ) : Decidable (ascii_header s) := by
  unfold ascii_header; infer_instance

/-- A stream whose first line is `" TSPLAT"` (leading space, so not the
literal magic text) followed by a declared count of zero. -/
def c3_cex_stream : List ℕ := 32 :: (tsplat_magic ++ [10] ++ [0, 0, 0, 0])

/-- A stream declaring `N = 2^31` triangles with an empty payload: the wasm32
size computation wraps all three record sizes to zero. -/
def c3_wrap_stream : List ℕ := tsplat_magic ++ [10] ++ [0, 0, 0, 128]

/-- C3 counterexample: (a) the first line of `c3_cex_stream` is not the
literal text `TSPLAT`, yet loading succeeds, because the code compares the
*trimmed* line; (b) `c3_wrap_stream` declares `2^31` triangles with an empty
payload — far shorter than the claim's expected byte count
`N·36 + N·4 + N·6` — yet loading succeeds and installs a scene, because the
wasm32 `usize` size computation wraps to zero. -/
theorem c3_untrimmed_header_accepted :
    (header_line c3_cex_stream ≠ tsplat_magic ∧
      load_ok (read_tsplat c3_cex_stream) = true) ∧
    (declared_count c3_wrap_stream = 2 ^ 31 ∧
      (after_line c3_wrap_stream).length - 4 <
        2 ^ 31 * 36 + 2 ^ 31 * 4 + 2 ^ 31 * 6 ∧
      load_ok (read_tsplat c3_wrap_stream) = true ∧
      load_scene none c3_wrap_stream ≠ none) := by
  decide

/-- C3 amended: for byte streams whose header line is ASCII, `read_tsplat`
fails with `InvalidFormat` exactly when the trimmed first line is not
`TSPLAT`, fewer than 4 count bytes follow the line, or the payload is shorter
than the expected byte count — computed, as the code does, in wrapping wasm32
`usize` arithmetic `(N·36 + N·4 + N·6) mod 2^32`; and on any non-successful
outcome (error or panic) no Scene is installed. -/
theorem c3_failure_contract :
    (∀ s : List ℕ, ascii_header s →
      (read_tsplat s = LoadResult.invalid ↔ ¬ valid_stream s)) ∧
    (∀ n : ℕ, expected_bytes n = (n * 36 + n * 4 + n * 6) % usize_size) ∧
    (∀ (sc : Option SceneSt) (s : List ℕ),
      read_tsplat s = LoadResult.invalid ∨ read_tsplat s = LoadResult.panic →
      load_scene sc s = sc) := by
  have hacc : ∀ s : List ℕ, parse_stream s = none ↔ ¬ valid_stream s := by
    intro s
    unfold parse_stream valid_stream declared_count
    by_cases hm : trim_bytes (header_line s) = tsplat_magic
    · rw [if_pos hm]
      by_cases h4 : 4 ≤ (after_line s).length
      · rw [if_pos h4]
        have hlen : ((after_line s).drop 4).length = (after_line s).length - 4 := by
          rw [List.length_drop]
        by_cases he : expected_bytes (leNat ((after_line s).take 4)) ≤
            ((after_line s).drop 4).length
        · rw [if_pos he]
          constructor
          · intro h
            exact Option.noConfusion h
          · intro hn
            exact absurd ⟨hm, h4, hlen ▸ he⟩ hn
        · rw [if_neg he]
          constructor
          · rintro - ⟨-, -, hc⟩
            exact he (by rw [hlen]; exact hc)
          · intro _
            rfl
      · rw [if_neg h4]
        constructor
        · rintro - ⟨-, hc, -⟩
          exact h4 hc
        · intro _
          rfl
    · rw [if_neg hm]
      constructor
      · rintro - ⟨hc, -, -⟩
        exact hm hc
      · intro _
        rfl
  refine ⟨?_, ?_, ?_⟩
  · intro s _
    rcases hps : parse_stream s with _ | ⟨n, buf⟩
    · constructor
      · intro _
        exact (hacc s).mp hps
      · intro _
        unfold read_tsplat
        rw [hps]
    · have hval : valid_stream s := by
        by_contra hnv
        rw [← hacc s] at hnv
        rw [hps] at hnv
        exact Option.noConfusion hnv
      constructor
      · intro hinv
        exfalso
        unfold read_tsplat at hinv
        rw [hps] at hinv
        have hinv2 : (if cast_sizes_ok n ∧ (num_tri_records n ≤ 1 ∨ positions_finite n buf)
            then LoadResult.ok (parse_buffer n buf) else LoadResult.panic) =
            LoadResult.invalid := hinv
        by_cases hc : cast_sizes_ok n ∧ (num_tri_records n ≤ 1 ∨ positions_finite n buf)
        · rw [if_pos hc] at hinv2
          exact LoadResult.noConfusion hinv2
        · rw [if_neg hc] at hinv2
          exact LoadResult.noConfusion hinv2
      · intro hnv
        exact absurd hval hnv
  · intro n
    unfold expected_bytes points_bytes alpha_sigma_bytes sh_bytes usize_size
    omega
  · intro sc s hf
    unfold load_scene
    rcases hf with hf | hf <;> rw [hf]

/-- Witness for C3 amended: the characterization applied to the empty stream,
whose header is (vacuously) ASCII and which is invalid. -/
theorem c3_failure_contract_witness : read_tsplat [] = LoadResult.invalid :=
  (c3_failure_contract.1 [] (by decide)).mpr (by decide)

/-! ## Claim C2: loader output shape, ordering and alignment -/

theorem positions_flat_length (l : List Tri) : (positions_flat l).length = 3 * l.length := by
  induction l with
  | nil => rfl
  | cons t ts ih =>
    show ([t.p0, t.p1, t.p2] ++ positions_flat ts).length = 3 * (ts.length + 1)
    rw [List.length_append, ih]
    simp only [List.length_cons, List.length_nil]
    omega

theorem map_getD_range {α : Type _} (l : List α) (d : α) :
    (List.range l.length).map (fun i => l.getD i d) = l := by
  apply List.ext_getElem
  · rw [List.length_map, List.length_range]
  · intro i h1 h2
    rw [List.getElem_map, List.getElem_range, List.getD_eq_getElem]

/-- The key/index pairs in closed form: `(sort_key points[i], i)` over the
index range. -/
theorem kv_pairs_eq (points : List Tri) :
    kv_pairs points =
      (List.range points.length).map (fun i => (sort_key (points.getD i default_tri), i)) := by
  apply List.ext_getElem
  · unfold kv_pairs
    rw [List.length_zip, List.length_map, List.length_range, Nat.min_self,
      List.length_map, List.length_range]
  · intro i h1 h2
    unfold kv_pairs at h1 ⊢
    have hi : i < points.length := by
      rw [List.length_zip, List.length_map, List.length_range, Nat.min_self] at h1
      exact h1
    rw [List.getElem_zip, List.getElem_map, List.getElem_map, List.getElem_range,
      List.getD_eq_getElem _ _ hi]

/-- When the declared size computation does not wrap, the record sizes and
counts take their mathematical values. -/
theorem no_wrap_sizes (n : ℕ) (hw : n * 46 < usize_size) :
    points_bytes n = n * 36 ∧ alpha_sigma_bytes n = n * 4 ∧ sh_bytes n = n * 6 ∧
    num_tri_records n = n ∧ num_alpha_records n = n ∧ num_dc_records n = n ∧
    n * 12 % usize_size = n * 12 := by
  unfold usize_size at hw
  unfold num_tri_records num_alpha_records num_dc_records points_bytes alpha_sigma_bytes
    sh_bytes usize_size
  omega

/-- Entries of the padded color array below the triangle count are the padded
DC terms (stated for non-wrapping counts). -/
theorem input_sh_getD (n : ℕ) (buf : List ℕ) (i : ℕ) (hi : i < n)
    (hw : n * 46 < usize_size) :
    (input_sh n buf).getD i zero4 = pad4 ((input_dc n buf).getD i zero3) := by
  obtain ⟨-, -, -, -, -, hdcn, h12⟩ := no_wrap_sizes n hw
  have hdc : (input_dc n buf).length = n := by
    unfold input_dc; rw [List.length_map, List.length_range, hdcn]
  have hmaplen : ((input_dc n buf).map pad4).length = n := by rw [List.length_map, hdc]
  have hshlen : (input_sh n buf).length = n * 12 := by
    unfold input_sh
    rw [h12, List.length_take, List.length_append, hmaplen, List.length_replicate]
    omega
  have hi' : i < (input_sh n buf).length := by omega
  rw [List.getD_eq_getElem _ _ hi']
  unfold input_sh
  rw [List.getElem_take, List.getElem_append_left (by omega : i < ((input_dc n buf).map pad4).length),
    List.getElem_map, List.getD_eq_getElem _ _ (by omega : i < (input_dc n buf).length)]

/-- The C2 contract on the loader output for a stream with `num_tris` declared
triangles and payload `buf`: array lengths, descending key order, and a single
index permutation aligning positions, alpha/spread and colors. -/
def loader_output_ok (num_tris : ℕ) (buf : List ℕ) (out : TSplat) : Prop :=
  (positions_flat out.points).length = 3 * num_tris ∧
  out.alpha_sigma.length = num_tris ∧
  out.sh.length = num_tris ∧
  List.Chain' (fun a b => sort_key b ≤ sort_key a) out.points ∧
  out.points.Perm (input_points num_tris buf) ∧
  ∃ perm : List ℕ, perm.Perm (List.range num_tris) ∧
    out.points = perm.map (fun i => (input_points num_tris buf).getD i default_tri) ∧
    out.alpha_sigma = perm.map (fun i => (input_alpha_sigma num_tris buf).getD i ⟨0, 0⟩) ∧
    out.sh = perm.map (fun i => pad4 ((input_dc num_tris buf).getD i zero3))

/-- C2 amended: on any accepted stream declaring `N` triangles whose size
computation does not wrap (`N·46 < 2^32`) and whose position payload consists
of finite f32 bit patterns (so the sort comparator never panics),
`read_tsplat` returns `3·N` position vectors (`N` triangles of 3 positions),
`N` alpha/spread records and `N` color records; consecutive output triangles
have non-increasing sort keys; and a single permutation of the input indices
generates all three output arrays, so entries at each output index come from
the same input triangle. -/
theorem c2_loader_output (s : List ℕ) (n : ℕ) (buf : List ℕ) (out : TSplat)
    (h1 : parse_stream s = some (n, buf)) (hw : n * 46 < usize_size)
    (hfin : positions_finite n buf) (h2 : read_tsplat s = LoadResult.ok out) :
    loader_output_ok n buf out := by
  obtain ⟨hpb, hab, hsb, htr, har, hdr, -⟩ := no_wrap_sizes n hw
  have hcast : cast_sizes_ok n := by
    unfold cast_sizes_ok
    rw [hpb, hab, hsb]
    refine ⟨?_, ⟨n, by ring⟩, ⟨n, by ring⟩, ⟨n, by ring⟩⟩
    unfold usize_size at hw ⊢
    omega
  have h2' : (if cast_sizes_ok n ∧ (num_tri_records n ≤ 1 ∨ positions_finite n buf) then
      LoadResult.ok (parse_buffer n buf) else LoadResult.panic) = LoadResult.ok out := by
    rw [← h2]
    unfold read_tsplat
    rw [h1]
  rw [if_pos ⟨hcast, Or.inr hfin⟩] at h2'
  have hout2 : out = parse_buffer n buf := by
    injection h2' with h; exact h.symm
  subst hout2
  have hptslen : (input_points n buf).length = n := by
    unfold input_points; rw [List.length_map, List.length_range, htr]
  set pts := input_points n buf with hpts
  set kvs := (kv_pairs pts).insertionSort kv_rel with hkvs
  have hperm : kvs.Perm (kv_pairs pts) := List.perm_insertionSort kv_rel _
  have hkveq := kv_pairs_eq pts
  have hkvlen : (kv_pairs pts).length = pts.length := by
    rw [hkveq, List.length_map, List.length_range]
  have hkvslen : kvs.length = n := by
    rw [hkvs, List.length_insertionSort, hkvlen, hptslen]
  have hop : (parse_buffer n buf).points = kvs.map (fun p => pts.getD p.2 default_tri) := rfl
  have hoa : (parse_buffer n buf).alpha_sigma =
      kvs.map (fun p => (input_alpha_sigma n buf).getD p.2 ⟨0, 0⟩) := rfl
  have hos : (parse_buffer n buf).sh =
      kvs.map (fun p => (input_sh n buf).getD p.2 zero4) := rfl
  have hmem : ∀ p ∈ kvs, p.2 < n ∧ p.1 = sort_key (pts.getD p.2 default_tri) := by
    intro p hp
    have hp2 : p ∈ kv_pairs pts := hperm.mem_iff.mp hp
    rw [hkveq] at hp2
    obtain ⟨i, hi, hpe⟩ := List.mem_map.mp hp2
    rw [List.mem_range] at hi
    rw [← hpe]
    exact ⟨by rw [← hptslen]; exact hi, rfl⟩
  set prm := kvs.map Prod.snd with hprm
  have hsndeq : (kv_pairs pts).map Prod.snd = List.range n := by
    rw [hkveq, List.map_map]
    have hcomp : (Prod.snd ∘ fun i => (sort_key (pts.getD i default_tri), i)) = id := rfl
    rw [hcomp, List.map_id, hptslen]
  have hprmperm : prm.Perm (List.range n) := by
    rw [hprm, ← hsndeq]
    exact hperm.map Prod.snd
  have hppts : (parse_buffer n buf).points =
      prm.map (fun i => pts.getD i default_tri) := by
    rw [hop, hprm, List.map_map]
    rfl
  have hpalpha : (parse_buffer n buf).alpha_sigma =
      prm.map (fun i => (input_alpha_sigma n buf).getD i ⟨0, 0⟩) := by
    rw [hoa, hprm, List.map_map]
    rfl
  have hos2 : (parse_buffer n buf).sh =
      kvs.map (fun p => pad4 ((input_dc n buf).getD p.2 zero3)) := by
    rw [hos]
    exact List.map_congr_left (fun p hp => input_sh_getD n buf p.2 (hmem p hp).1 hw)
  have hpsh : (parse_buffer n buf).sh =
      prm.map (fun i => pad4 ((input_dc n buf).getD i zero3)) := by
    rw [hos2, hprm, List.map_map]
    rfl
  have hsorted : List.Sorted kv_rel kvs := List.sorted_insertionSort kv_rel _
  refine ⟨?_, ?_, ?_, ?_, ?_, prm, hprmperm, hppts, hpalpha, hpsh⟩
  · rw [positions_flat_length, hop, List.length_map, hkvslen]
  · rw [hoa, List.length_map, hkvslen]
  · rw [hos, List.length_map, hkvslen]
  · rw [hop]
    refine List.Pairwise.chain' ?_
    rw [List.pairwise_map]
    refine List.Pairwise.imp_of_mem ?_ hsorted
    intro a b ha hb hr
    rw [← (hmem a ha).2, ← (hmem b hb).2]
    exact hr
  · rw [hppts]
    have hrange : (List.range n).map (fun i => pts.getD i default_tri) = pts := by
      rw [← hptslen]
      exact map_getD_range pts default_tri
    have hfin := hprmperm.map (fun i => pts.getD i default_tri)
    rw [hrange] at hfin
    exact hfin

/-- A well-formed one-triangle stream with an all-zero payload. -/
def c2_stream : List ℕ := tsplat_magic ++ [10] ++ [1, 0, 0, 0] ++ List.replicate 46 0

def c2_buf : List ℕ := List.replicate 46 0

def c2_out : TSplat := parse_buffer 1 c2_buf

/-- Witness for C2 amended at the one-triangle stream. -/
theorem c2_loader_output_witness : loader_output_ok 1 c2_buf c2_out :=
  c2_loader_output c2_stream 1 c2_buf c2_out (by decide) (by decide) (by decide)
    (by
      have hps : parse_stream c2_stream = some (1, c2_buf) := by decide
      unfold read_tsplat
      rw [hps]
      show (if cast_sizes_ok 1 ∧ (num_tri_records 1 ≤ 1 ∨ positions_finite 1 c2_buf) then
          LoadResult.ok (parse_buffer 1 c2_buf) else LoadResult.panic) = LoadResult.ok c2_out
      rw [if_pos ⟨by decide, Or.inr (by decide)⟩]
      rfl)

/-- A stream with a correct header declaring two triangles and exactly the
expected 92 payload bytes, whose first position float is the NaN bit pattern
`0x7FC00000`. -/
def c2_nan_stream : List ℕ :=
  tsplat_magic ++ [10] ++ [2, 0, 0, 0] ++ ([0, 0, 192, 127] ++ List.replicate 88 0)

/-- C2 counterexample: this stream satisfies the claim's premise — correct
header, two declared triangles, exactly the expected `2·46 = 92` payload
bytes (no wrapping involved) — but its NaN position pattern makes a sort key
NaN, so `kv.sort_by`'s `partial_cmp().unwrap()` (load.rs line 114) panics and
the call never returns output arrays. -/
theorem c2_nan_key_panics :
    header_line c2_nan_stream = tsplat_magic ∧
    declared_count c2_nan_stream = 2 ∧
    (after_line c2_nan_stream).length - 4 = expected_bytes 2 ∧
    expected_bytes 2 = 2 * 36 + 2 * 4 + 2 * 6 ∧
    read_tsplat c2_nan_stream = LoadResult.panic := by
  decide

end TriangleSplatting
